import Mathlib

/-!
Shallow embedding of the persistence-and-sync core of the stock-management
app (docs/assets/js/app.js): the retryable fetch loop, the collection
mutation operations, the storage capacity accounting, the save path and
the import path, together with proofs of the testable properties.
-/

namespace StockManagement

/-- One inventory item record as built by the add-item handler:
`{ id, name, quantity, image, createdAt }`.  JS numbers restricted to the
integers actually produced by `parseInt` / arithmetic on them. -/
structure Item where
  id : String
  name : String
  quantity : Int
  image : Option String
  createdAt : String
  deriving DecidableEq, Repr

/-! ## Retryable fetch (`fetchWithRetry`, app.js lines 22-51)

The environment of one call is a function from attempt index to the outcome
of the `fetch` at that attempt: either a successful response body or a
raised error message (a non-ok HTTP status is turned into a raised error by
the source before the catch, so both collapse to `failure`). -/

/-- Outcome of one underlying `fetch` attempt. -/
inductive FetchResult where
  | success (response : String)
  | failure (message : String)
  deriving DecidableEq, Repr

/-- The error text thrown after exhausting all attempts, from
`Failed after ${maxRetries} attempts: ${lastError ? lastError.message : 'Unknown error'}`. -/
def exhaustedMessage (maxRetries : Nat) (lastError : Option String) : String :=
  "Failed after " ++ toString maxRetries ++ " attempts: " ++
    (match lastError with
     | some m => m
     | none => "Unknown error")

/-- The retry loop of `fetchWithRetry`, structurally recursive on the number
of remaining iterations.  Returns the list of backoff delays awaited, in
order, paired with the final outcome.  Each failed attempt `attempt`
appends `Math.min(Math.pow(2, attempt) * 100, 2000)` and the loop sleeps it
unconditionally inside the catch, even after the final attempt. -/
def fetchLoop (env : Nat → FetchResult) (maxRetries : Nat) :
    Nat → Nat → Option String → List Nat × Except String String
  | _, 0, lastError => ([], Except.error (exhaustedMessage maxRetries lastError))
  | attempt, remaining + 1, _ =>
    match env attempt with
    | FetchResult.success r => ([], Except.ok r)
    | FetchResult.failure msg =>
      let delay := min (2 ^ attempt * 100) 2000
      let rest := fetchLoop env maxRetries (attempt + 1) remaining (some msg)
      (delay :: rest.1, rest.2)

/-- `fetchWithRetry(url, options, maxRetries)`: run the loop from attempt 0
with `lastError = null`.  First component: the backoff delays awaited, in
order; second: the returned response or the thrown error message. -/
def fetchWithRetry (env : Nat → FetchResult) (maxRetries : Nat) :
    List Nat × Except String String :=
  fetchLoop env maxRetries 0 maxRetries none

/-- An endpoint that fails twice and then succeeds. -/
def envFailTwice : Nat → FetchResult := fun a =>
  if a < 2 then FetchResult.failure ("fail" ++ toString a) else FetchResult.success "ok"

/-- An endpoint that always fails with the same error. -/
def envAlwaysFail : Nat → FetchResult := fun _ => FetchResult.failure "boom"

/-! ## Collection Store mutations (app.js lines 281-335, 429-467)

The in-memory `inventory` array is a `List Item`.  The DOM side effects and
the persist call are outside the collection transformation modelled here. -/

/-- `updateItemQuantity(id, change)` (app.js 429-455): `findIndex` on
`item.id === id` followed by an in-place assignment of
`Math.max(0, inventory[index].quantity + change)` at that index, i.e. the
first item whose id matches gets its quantity clamped-updated; if no item
matches (`index === -1`) the array is untouched. -/
def updateItemQuantity : List Item → String → Int → List Item
  | [], _, _ => []
  | it :: rest, id, change =>
    if it.id = id then
      { it with quantity := max 0 (it.quantity + change) } :: rest
    else
      it :: updateItemQuantity rest id change

/-- `deleteItem(id)` (app.js 458-467): `findIndex` on `item.id === id`
followed by `splice(index, 1)`, i.e. the first item whose id matches is
removed; if none matches the array is untouched. -/
def deleteItem : List Item → String → List Item
  | [], _ => []
  | it :: rest, id => if it.id = id then rest else it :: deleteItem rest id

/-- The full call of `deleteItem`: the new array together with the JS
return value.  The source function has no `return` statement on any path,
so the call evaluates to `undefined` always, modelled as `none`. -/
def deleteItemCall (inv : List Item) (id : String) : List Item × Option Bool :=
  (deleteItem inv id, none)

/-- JS `String.prototype.trim`: strip leading and trailing whitespace,
modelled structurally on the character list.  (The library trim on
`String` is defined by well-founded recursion on byte positions, which
does not reduce definitionally; this structural version lets concrete
runs evaluate.) -/
def trimString (s : String) : String :=
  String.mk (((s.data.dropWhile Char.isWhitespace).reverse.dropWhile Char.isWhitespace).reverse)

/-- The add-item submit handler (app.js 281-335): `name` is the trimmed
input, `quantity` is `parseInt(value, 10)` modelled as `Option Int`
(`none` for `NaN`); the handler returns early when `!name || isNaN(quantity)`,
otherwise it pushes `{ id, name, quantity, image, createdAt }`. -/
def addItemSubmit (inv : List Item) (rawName : String) (parsedQuantity : Option Int)
    (image : Option String) (id createdAt : String) : List Item :=
  let name := trimString rawName
  match parsedQuantity with
  | none => inv
  | some q =>
    if name = "" then inv
    else inv ++ [{ id := id, name := name, quantity := q, image := image, createdAt := createdAt }]

/-- One user-level mutation of the collection. -/
inductive StockOp where
  | add (rawName : String) (parsedQuantity : Option Int) (image : Option String)
      (id createdAt : String)
  | adjust (id : String) (delta : Int)
  | remove (id : String)
  deriving Repr

/-- Apply one mutation to the in-memory collection. -/
def applyOp (inv : List Item) : StockOp → List Item
  | StockOp.add n q img i t => addItemSubmit inv n q img i t
  | StockOp.adjust i d => updateItemQuantity inv i d
  | StockOp.remove i => deleteItem inv i

/-- Apply a sequence of mutations left to right. -/
def applyOps (inv : List Item) (ops : List StockOp) : List Item :=
  ops.foldl applyOp inv

/-- An `add` operation whose parsed quantity is nonnegative (vacuous for the
other operations and for a `NaN` quantity, which is rejected anyway). -/
def opAddsNonneg : StockOp → Prop
  | StockOp.add _ (some q) _ _ _ => 0 ≤ q
  | _ => True

instance : DecidablePred opAddsNonneg := fun op =>
  match op with
  | StockOp.add _ (some _) _ _ _ => inferInstanceAs (Decidable (0 ≤ _))
  | StockOp.add _ none _ _ _ => inferInstanceAs (Decidable True)
  | StockOp.adjust _ _ => inferInstanceAs (Decidable True)
  | StockOp.remove _ => inferInstanceAs (Decidable True)

/-! ## UI notifications -/

/-- Toast severity, the second argument of `showToast`. -/
inductive Severity where
  | success
  | error
  | warning
  | info
  deriving DecidableEq, Repr

/-- One `showToast(message, type)` call. -/
structure Toast where
  message : String
  severity : Severity
  deriving DecidableEq, Repr

/-! ## Durable store and capacity accounting (app.js 66-130, 155-171) -/

/-- `MAX_LOCALSTORAGE_SIZE = 5 * 1024 * 1024` (app.js line 2). -/
def MAX_LOCALSTORAGE_SIZE : Nat := 5 * 1024 * 1024

/-- Snapshot of the persistence layer: the availability flag probed at
startup and the key/value pairs currently in `localStorage`. -/
structure StorageState where
  available : Bool
  entries : List (String × String)
  deriving Repr

/-- The record returned by `getStorageInfo`. -/
structure StorageInfo where
  used : Nat
  quota : Nat
  percentage : ℚ
  deriving DecidableEq, Repr

/-- The accumulation loop of `getStorageInfo` (app.js 69-74): `used`
starts at 0 and gains `(key.length + value.length) * 2` for every key in
`localStorage`. -/
def storageUsed (entries : List (String × String)) : Nat :=
  entries.foldl (fun acc kv => acc + (kv.1.length + kv.2.length) * 2) 0

/-- `getStorageInfo()` (app.js 66-81): `{0, 0, 0}` when storage is
unavailable; otherwise `used` is the accumulated loop total, `quota` is
the fixed constant, and `percentage = (used / MAX_LOCALSTORAGE_SIZE) * 100`
(exact rational arithmetic in place of JS float division). -/
def getStorageInfo (s : StorageState) : StorageInfo :=
  if s.available then
    { used := storageUsed s.entries
      quota := MAX_LOCALSTORAGE_SIZE
      percentage := ((storageUsed s.entries : ℚ) / (MAX_LOCALSTORAGE_SIZE : ℚ)) * 100 }
  else { used := 0, quota := 0, percentage := 0 }

/-- `updateStorageInfo()` (app.js 84-130), restricted to its observable
notifications: an early return when storage is unavailable; otherwise the
DOM display is refreshed (outside the model) and a warning toast is shown
exactly when `info.percentage > 85`.  There is no latch or debounce state,
so the toast list is a pure function of the storage snapshot. -/
def updateStorageInfo (s : StorageState) : List Toast :=
  if s.available then
    if (getStorageInfo s).percentage > 85 then
      [{ message := "Warning: Running low on storage space. Consider exporting and clearing data."
         severity := Severity.warning }]
    else []
  else []

/-! ## Save path (app.js 155-171) -/

/-- The exception caught by `saveInventory`'s `catch`: its `name` and
optional numeric `code`. -/
structure JsError where
  name : String
  code : Option Int
  deriving DecidableEq, Repr

/-- Observable outcome of one `saveInventory()` call: the in-memory
collection afterwards, the `showStorageStatus(isAvailable, message)` calls,
the toasts, and whether `updateStorageInfo` ran.  The function is total:
the source wraps the write in try/catch and never rethrows. -/
structure SaveOutcome where
  inventory : List Item
  statusCalls : List (Bool × Option String)
  toasts : List Toast
  refreshedStorageInfo : Bool
  deriving DecidableEq, Repr

/-- `saveInventory()` (app.js 155-171).  `setItemResult` is the behaviour of
the underlying `localStorage.setItem`: `none` for success, `some e` for a
raised exception.  Classification from the source:
`error.name === 'QuotaExceededError' || error.code === 22`. -/
def saveInventory (inv : List Item) (storageAvailable : Bool)
    (setItemResult : Option JsError) : SaveOutcome :=
  if storageAvailable then
    match setItemResult with
    | none =>
      { inventory := inv
        statusCalls := [(true, some "Data saved")]
        toasts := []
        refreshedStorageInfo := true }
    | some e =>
      if e.name = "QuotaExceededError" ∨ e.code = some 22 then
        { inventory := inv
          statusCalls := [(false, some "Storage quota exceeded")]
          toasts := [{ message := "Storage quota exceeded. Try removing some items or images."
                       severity := Severity.error }]
          refreshedStorageInfo := false }
      else
        { inventory := inv
          statusCalls := [(false, some "Error saving data")]
          toasts := []
          refreshedStorageInfo := false }
  else
    { inventory := inv, statusCalls := [], toasts := [], refreshedStorageInfo := false }

/-! ## Import path (app.js 712-761) -/

/-- An element of a parsed import array: the fields `importInventory`
touches (`id`, `createdAt`, backfilled when falsy) kept optional, the rest
as in an `Item`. -/
structure RawItem where
  id : Option String
  name : String
  quantity : Int
  image : Option String
  createdAt : Option String
  deriving DecidableEq, Repr

/-- The top-level JSON value obtained from `JSON.parse` of the file text:
either an array of records, or one of the non-array JSON shapes that make
`Array.isArray` false. -/
inductive JsonValue where
  | arr (items : List RawItem)
  | object
  | string (s : String)
  | number (n : Int)
  | boolean (b : Bool)
  | null
  deriving DecidableEq, Repr

/-- Backfill of one imported record (app.js 731-737): `if (!item.id)` and
`if (!item.createdAt)` replace a missing or empty (falsy) value with a
freshly generated one. -/
def backfillItem (r : RawItem) (freshId freshCreatedAt : String) : Item :=
  { id := match r.id with
          | some s => if s = "" then freshId else s
          | none => freshId
    name := r.name
    quantity := r.quantity
    image := r.image
    createdAt := match r.createdAt with
                 | some s => if s = "" then freshCreatedAt else s
                 | none => freshCreatedAt }

/-- Observable outcome of one `importInventory` file load: the in-memory
collection afterwards, whether `saveInventory` was invoked (the persisted
blob rewritten), and the toasts shown. -/
structure ImportOutcome where
  inventory : List Item
  persistedWrite : Bool
  toasts : List Toast
  deriving DecidableEq, Repr

/-- `importInventory` (app.js 718-750) after a successful `JSON.parse`:
a non-array payload throws `Invalid inventory data format`, which the catch
turns into an error toast, leaving the collection alone and never reaching
`saveInventory`; an array payload opens the confirm modal (`confirm` is the
user's choice) and on confirm appends each backfilled record (`idGen n`,
`tsGen n` the generated id/timestamp for the n-th record), saves, and shows
a success toast. -/
def importInventory (inv : List Item) (payload : JsonValue) (confirm : Bool)
    (idGen tsGen : Nat → String) : ImportOutcome :=
  match payload with
  | JsonValue.arr items =>
    if confirm then
      let newInv :=
        inv ++ items.enum.map (fun p => backfillItem p.2 (idGen p.1) (tsGen p.1))
      { inventory := newInv
        persistedWrite := true
        toasts := [{ message := "Imported " ++ toString items.length ++ " items successfully"
                     severity := Severity.success }] }
    else
      { inventory := inv, persistedWrite := false, toasts := [] }
  | _ =>
    { inventory := inv
      persistedWrite := false
      toasts := [{ message := "Error importing inventory data: " ++ "Invalid inventory data format"
                   severity := Severity.error }] }

/-- A concrete item used in witnesses and counterexamples. -/
def item5 : Item :=
  { id := "a", name := "apples", quantity := 5, image := none, createdAt := "2024-01-01T00:00:00Z" }

/-- A long persisted value: 2 500 000 characters. -/
def bigValue : String := String.mk (List.replicate 2500000 'a')

/-- A storage snapshot holding one large entry, about 95% of the quota. -/
def bigState : StorageState := { available := true, entries := [("k", bigValue)] }

/-- A concrete mutation sequence whose add has a nonnegative quantity. -/
def opsNonneg : List StockOp :=
  [StockOp.add "apples" (some 5) none "a" "2024-01-01T00:00:00Z",
   StockOp.adjust "a" (-999999),
   StockOp.remove "z"]

/-! ## Helper lemmas -/

theorem fetchLoop_delay (env : Nat → FetchResult) (maxRetries : Nat) :
    ∀ (remaining attempt : Nat) (lastError : Option String) (i : Nat),
      i < (fetchLoop env maxRetries attempt remaining lastError).1.length →
      (fetchLoop env maxRetries attempt remaining lastError).1[i]? =
        some (min (2 ^ (attempt + i) * 100) 2000) := by
  intro remaining
  induction remaining with
  | zero =>
    intro attempt lastError i hi
    simp [fetchLoop] at hi
  | succ remaining ih =>
    intro attempt lastError i hi
    simp only [fetchLoop] at hi ⊢
    cases henv : env attempt with
    | success r => simp [henv] at hi
    | failure msg =>
      simp only [henv] at hi ⊢
      cases i with
      | zero => simp
      | succ i =>
        simp only [List.length_cons, Nat.succ_lt_succ_iff] at hi
        simp only [List.getElem?_cons_succ]
        have h := ih (attempt + 1) (some msg) i hi
        have e : attempt + 1 + i = attempt + (i + 1) := by omega
        rw [h, e]

theorem updateItemQuantity_absent :
    ∀ (inv : List Item) (id : String) (delta : Int),
      (∀ it ∈ inv, it.id ≠ id) → updateItemQuantity inv id delta = inv := by
  intro inv id delta h
  induction inv with
  | nil => rfl
  | cons it rest ih =>
    have hit : it.id ≠ id := h it (List.mem_cons_self it rest)
    simp only [updateItemQuantity, if_neg hit]
    rw [ih fun x hx => h x (List.mem_cons_of_mem it hx)]

theorem updateItemQuantity_first :
    ∀ (pre : List Item) (it : Item) (post : List Item) (id : String) (delta : Int),
      (∀ x ∈ pre, x.id ≠ id) → it.id = id →
      updateItemQuantity (pre ++ it :: post) id delta =
        pre ++ { it with quantity := max 0 (it.quantity + delta) } :: post := by
  intro pre
  induction pre with
  | nil =>
    intro it post id delta _ hid
    simp [updateItemQuantity, if_pos hid]
  | cons x pre ih =>
    intro it post id delta hpre hid
    have hx : x.id ≠ id := hpre x (List.mem_cons_self x pre)
    simp only [List.cons_append, updateItemQuantity, if_neg hx]
    exact congrArg (List.cons x)
      (ih it post id delta (fun y hy => hpre y (List.mem_cons_of_mem x hy)) hid)

theorem updateItemQuantity_frame_rel :
    ∀ (inv : List Item) (id : String) (delta : Int),
      List.Forall₂ (fun old new =>
          new.id = old.id ∧ new.name = old.name ∧ new.image = old.image ∧
          new.createdAt = old.createdAt ∧ (old.id ≠ id → new = old))
        inv (updateItemQuantity inv id delta) := by
  intro inv id delta
  induction inv with
  | nil => exact List.Forall₂.nil
  | cons it rest ih =>
    by_cases hit : it.id = id
    · simp only [updateItemQuantity, if_pos hit]
      refine List.Forall₂.cons ⟨rfl, rfl, rfl, rfl, fun hne => absurd hit hne⟩ ?_
      exact List.forall₂_same.mpr fun x _ => ⟨rfl, rfl, rfl, rfl, fun _ => rfl⟩
    · simp only [updateItemQuantity, if_neg hit]
      exact List.Forall₂.cons ⟨rfl, rfl, rfl, rfl, fun _ => rfl⟩ ih

theorem updateItemQuantity_nonneg :
    ∀ (inv : List Item) (id : String) (delta : Int),
      (∀ it ∈ inv, 0 ≤ it.quantity) →
      ∀ it ∈ updateItemQuantity inv id delta, 0 ≤ it.quantity := by
  intro inv id delta h
  induction inv with
  | nil => intro it hit; simp [updateItemQuantity] at hit
  | cons x rest ih =>
    intro it hit
    by_cases hx : x.id = id
    · simp only [updateItemQuantity, if_pos hx, List.mem_cons] at hit
      rcases hit with hit | hit
      · rw [hit]; exact le_max_left 0 _
      · exact h it (List.mem_cons_of_mem x hit)
    · simp only [updateItemQuantity, if_neg hx, List.mem_cons] at hit
      rcases hit with hit | hit
      · rw [hit]; exact h x (List.mem_cons_self x rest)
      · exact ih (fun y hy => h y (List.mem_cons_of_mem x hy)) it hit

theorem deleteItem_subset :
    ∀ (inv : List Item) (id : String) (it : Item), it ∈ deleteItem inv id → it ∈ inv := by
  intro inv id it h
  induction inv with
  | nil => simp [deleteItem] at h
  | cons x rest ih =>
    by_cases hx : x.id = id
    · simp only [deleteItem, if_pos hx] at h
      exact List.mem_cons_of_mem x h
    · simp only [deleteItem, if_neg hx, List.mem_cons] at h
      rcases h with h | h
      · exact h ▸ List.mem_cons_self x rest
      · exact List.mem_cons_of_mem x (ih h)

theorem deleteItem_absent :
    ∀ (inv : List Item) (id : String),
      (∀ it ∈ inv, it.id ≠ id) → deleteItem inv id = inv := by
  intro inv id h
  induction inv with
  | nil => rfl
  | cons x rest ih =>
    have hx : x.id ≠ id := h x (List.mem_cons_self x rest)
    simp only [deleteItem, if_neg hx]
    rw [ih fun y hy => h y (List.mem_cons_of_mem x hy)]

theorem deleteItem_present_length :
    ∀ (inv : List Item) (id : String),
      (∃ it ∈ inv, it.id = id) → (deleteItem inv id).length + 1 = inv.length := by
  intro inv id h
  induction inv with
  | nil => simp at h
  | cons x rest ih =>
    by_cases hx : x.id = id
    · simp [deleteItem, if_pos hx]
    · simp only [deleteItem, if_neg hx, List.length_cons]
      rcases h with ⟨it, hmem, hid⟩
      rcases List.mem_cons.mp hmem with heq | hmem
      · exact absurd (heq ▸ hid) hx
      · rw [← ih ⟨it, hmem, hid⟩]

theorem mem_addItemSubmit :
    ∀ (inv : List Item) (rawName : String) (parsedQuantity : Option Int)
      (image : Option String) (id createdAt : String) (it : Item),
      it ∈ addItemSubmit inv rawName parsedQuantity image id createdAt →
      it ∈ inv ∨ ∃ q, parsedQuantity = some q ∧ it.quantity = q := by
  intro inv rawName parsedQuantity image id createdAt it h
  cases parsedQuantity with
  | none => exact Or.inl h
  | some q =>
    simp only [addItemSubmit] at h
    by_cases hn : trimString rawName = ""
    · rw [if_pos hn] at h
      exact Or.inl h
    · rw [if_neg hn] at h
      rcases List.mem_append.mp h with h | h
      · exact Or.inl h
      · rcases List.mem_singleton.mp h with rfl
        exact Or.inr ⟨q, rfl, rfl⟩

theorem applyOps_nonneg :
    ∀ (ops : List StockOp) (inv : List Item),
      (∀ it ∈ inv, 0 ≤ it.quantity) →
      (∀ op ∈ ops, opAddsNonneg op) →
      ∀ it ∈ applyOps inv ops, 0 ≤ it.quantity := by
  intro ops
  induction ops with
  | nil => intro inv hinv _ it hit; exact hinv it hit
  | cons op ops ih =>
    intro inv hinv hops it hit
    have hop : opAddsNonneg op := hops op (List.mem_cons_self op ops)
    have hops' : ∀ o ∈ ops, opAddsNonneg o := fun o ho => hops o (List.mem_cons_of_mem op ho)
    have hstep : ∀ x ∈ applyOp inv op, 0 ≤ x.quantity := by
      intro x hx
      cases op with
      | add n q img i t =>
        rcases mem_addItemSubmit inv n q img i t x hx with hmem | ⟨q', hq, hxq⟩
        · exact hinv x hmem
        · subst hq
          rw [hxq]
          exact hop
      | adjust i d => exact updateItemQuantity_nonneg inv i d hinv x hx
      | remove i => exact hinv x (deleteItem_subset inv i x hx)
    have : applyOps inv (op :: ops) = applyOps (applyOp inv op) ops := rfl
    rw [this] at hit
    exact ih (applyOp inv op) hstep hops' it hit

theorem foldl_add_map {α : Type} (f : α → Nat) :
    ∀ (l : List α) (n : Nat), l.foldl (fun acc x => acc + f x) n = n + (l.map f).sum := by
  intro l
  induction l with
  | nil => intro n; simp
  | cons x l ih =>
    intro n
    simp only [List.foldl_cons, List.map_cons, List.sum_cons, ih]
    omega

theorem storageUsed_eq_sum (entries : List (String × String)) :
    storageUsed entries =
      (entries.map (fun kv => (kv.1.length + kv.2.length) * 2)).sum := by
  have h := foldl_add_map (fun kv : String × String => (kv.1.length + kv.2.length) * 2)
    entries 0
  simpa [storageUsed] using h

theorem percentage_of_big_entry (v : String) (hv : v.length = 2500000) :
    (getStorageInfo { available := true, entries := [("k", v)] }).percentage > 85 := by
  have hpe : (getStorageInfo { available := true, entries := [("k", v)] }).percentage =
      ((storageUsed [("k", v)] : ℚ) / (MAX_LOCALSTORAGE_SIZE : ℚ)) * 100 := rfl
  have hu : storageUsed [("k", v)] = ("k".length + v.length) * 2 := Nat.zero_add _
  rw [hpe, hu, hv]
  norm_num [MAX_LOCALSTORAGE_SIZE, show ("k" : String).length = 1 from rfl]

/-! ## Claim theorems -/

/-- C1, counterexample to the claim as stated: in the fails-twice run the
loop reaches attempt 1 (and succeeds at attempt 2), and the wait before
attempt 1 — the first entry of the delay list — is 100 ms, while the
claimed formula min(2^k * 100, 2000) at k = 1 gives 200 ms. -/
theorem backoff_formula_counterexample :
    fetchWithRetry envFailTwice 3 = ([100, 200], Except.ok "ok") ∧
    min (2 ^ 1 * 100) 2000 = 200 ∧ (100 : Nat) ≠ 200 :=
  ⟨rfl, rfl, by decide⟩

/-- C1 (amended): the backoff delay waited before attempt k (0-indexed,
k ≥ 1, attempt actually made so that entry k − 1 of the delay list exists)
equals min(2^(k−1) * 100 ms, 2000 ms) — one factor of 2 below the claimed
min(2^k * 100, 2000).  With an endpoint that fails twice then succeeds,
the success response is returned after exactly the two waits 100 ms and
200 ms. -/
theorem backoff_delay_before_attempt (env : Nat → FetchResult) (maxRetries k : Nat)
    (_hk : 1 ≤ k) (hlt : k - 1 < (fetchWithRetry env maxRetries).1.length) :
    (fetchWithRetry env maxRetries).1[k - 1]? = some (min (2 ^ (k - 1) * 100) 2000) ∧
    fetchWithRetry envFailTwice 3 = ([100, 200], Except.ok "ok") := by
  refine ⟨?_, rfl⟩
  have h := fetchLoop_delay env maxRetries maxRetries 0 none (k - 1) hlt
  simpa [fetchWithRetry] using h

/-- C1 witness: the amended theorem applied to the always-failing endpoint
with maxRetries = 3 and k = 1. -/
theorem backoff_delay_before_attempt_witness :
    (fetchWithRetry envAlwaysFail 3).1[0]? = some (min (2 ^ 0 * 100) 2000) :=
  (backoff_delay_before_attempt envAlwaysFail 3 1 (by decide) (by decide)).1

/-- C2, counterexample to the claim as stated: with maxAttempts = 3 against
an always-failing target the call waits three backoff delays 100 ms, 200 ms
and 400 ms — the catch block sleeps even after the final attempt — rather
than exactly the claimed two. -/
theorem exhaustion_two_delays_counterexample :
    (fetchWithRetry envAlwaysFail 3).1 = [100, 200, 400] ∧
    [100, 200, 400] ≠ ([100, 200] : List Nat) :=
  ⟨rfl, by decide⟩

/-- C2 (amended): with maxAttempts = 3 and every attempt failing, the call
waits three backoff delays 100 ms, 200 ms and 400 ms (the third one after
the final failed attempt, before throwing) and then fails with an error
whose message embeds the attempt count 3 and the last underlying error. -/
theorem exhaustion_three_delays (f : Nat → String) :
    fetchWithRetry (fun a => FetchResult.failure (f a)) 3 =
      ([100, 200, 400], Except.error ("Failed after 3 attempts: " ++ f 2)) :=
  rfl

/-- C3, counterexample to the claim as stated: the add handler rejects only
an empty trimmed name and a NaN quantity, so a single add whose quantity
parses to −1 puts an item with negative quantity into the collection. -/
theorem quantity_invariant_counterexample :
    ¬ (∀ it ∈ applyOps [] [StockOp.add "a" (some (-1)) none "id0" "t0"],
        0 ≤ it.quantity) := by
  decide

/-- C3 (amended): for every sequence of add / adjustQuantity / remove
operations on the initially empty collection in which every add carries a
nonnegative parsed quantity, every item of the resulting collection has
quantity ≥ 0 (adjustQuantity clamps at 0, remove only drops items). -/
theorem quantity_nonneg_invariant (ops : List StockOp)
    (h : ∀ op ∈ ops, opAddsNonneg op) :
    ∀ it ∈ applyOps [] ops, 0 ≤ it.quantity :=
  applyOps_nonneg ops [] (by intro it hit; simp at hit) h

/-- C3 witness: the amended invariant on a concrete add / adjust / remove
sequence. -/
theorem quantity_nonneg_invariant_witness :
    (∀ op ∈ opsNonneg, opAddsNonneg op) ∧
    ∀ it ∈ applyOps [] opsNonneg, 0 ≤ it.quantity :=
  ⟨by decide, quantity_nonneg_invariant opsNonneg (by decide)⟩

/-- C4, counterexample to the claim as stated: deleteItem has no return
statement, so on a present id the item is removed but the call returns
undefined (modelled none), never true. -/
theorem remove_returns_bool_counterexample :
    deleteItemCall [item5] "a" = ([], none) ∧ (none : Option Bool) ≠ some true :=
  ⟨rfl, by decide⟩

/-- C4 (amended): deleteItem yields undefined (no boolean) on every path;
when the id is absent the collection is left entirely unchanged (in
particular its length), and when the id is present the first matching item
is removed, shrinking the collection by exactly one. -/
theorem remove_semantics (inv : List Item) (id : String) :
    (deleteItemCall inv id).2 = none ∧
    ((∀ it ∈ inv, it.id ≠ id) → deleteItemCall inv id = (inv, none)) ∧
    ((∃ it ∈ inv, it.id = id) → (deleteItem inv id).length + 1 = inv.length) :=
  ⟨rfl,
   fun h => by
     show (deleteItem inv id, (none : Option Bool)) = (inv, none)
     rw [deleteItem_absent inv id h],
   deleteItem_present_length inv id⟩

/-- C4 witness: the amended theorem applied to a one-item collection, once
with an absent id and once with the present one. -/
theorem remove_semantics_witness :
    ((∀ it ∈ [item5], it.id ≠ "z") ∧ deleteItemCall [item5] "z" = ([item5], none)) ∧
    ((∃ it ∈ [item5], it.id = "a") ∧ (deleteItem [item5] "a").length + 1 = [item5].length) :=
  ⟨⟨by decide, (remove_semantics [item5] "z").2.1 (by decide)⟩,
   ⟨by decide, (remove_semantics [item5] "a").2.2 (by decide)⟩⟩

/-- C5: updateItemQuantity(id, delta) leaves the collection unchanged when
no item carries the id, and otherwise rewrites the first item carrying the
id to quantity max 0 (current + delta), the clamp of the source
Math.max(0, inventory[index].quantity + change). -/
theorem adjustQuantity_spec (inv : List Item) (id : String) (delta : Int) :
    ((∀ it ∈ inv, it.id ≠ id) → updateItemQuantity inv id delta = inv) ∧
    (∀ pre it post, inv = pre ++ it :: post → (∀ x ∈ pre, x.id ≠ id) → it.id = id →
      updateItemQuantity inv id delta =
        pre ++ { it with quantity := max 0 (it.quantity + delta) } :: post) :=
  ⟨updateItemQuantity_absent inv id delta,
   fun pre it post heq hpre hid => by
     rw [heq]
     exact updateItemQuantity_first pre it post id delta hpre hid⟩

/-- C5 witness: adjustQuantity with delta −999999 on quantity 5 yields 0,
and an absent id is a no-op. -/
theorem adjustQuantity_spec_witness :
    updateItemQuantity [item5] "a" (-999999) = [{ item5 with quantity := 0 }] ∧
    updateItemQuantity [item5] "z" 7 = [item5] := by
  constructor
  · have h := (adjustQuantity_spec [item5] "a" (-999999)).2 [] item5 [] rfl (by simp) rfl
    rw [h]
    decide
  · exact (adjustQuantity_spec [item5] "z" 7).1 (by decide)

/-- C6: with storage available, getStorageInfo reports used as the sum over
all persisted keys of (key length + value length) * 2, quota as the fixed
5 MiB constant (the function consults no environment quota), and percentage
as used / quota * 100. -/
theorem getStorageInfo_spec (s : StorageState) (h : s.available = true) :
    getStorageInfo s =
      { used := (s.entries.map (fun kv => (kv.1.length + kv.2.length) * 2)).sum
        quota := 5 * 1024 * 1024
        percentage :=
          (((s.entries.map (fun kv => (kv.1.length + kv.2.length) * 2)).sum : ℕ) : ℚ)
            / ((5 * 1024 * 1024 : ℕ) : ℚ) * 100 } := by
  simp only [getStorageInfo, MAX_LOCALSTORAGE_SIZE, h, if_true, eq_self_iff_true,
    storageUsed_eq_sum]

/-- C6 witness: the theorem evaluated on a one-entry snapshot. -/
theorem getStorageInfo_spec_witness :
    getStorageInfo { available := true, entries := [("a", "bc")] } =
      { used := 6, quota := 5242880,
        percentage := ((6 : ℕ) : ℚ) / ((5242880 : ℕ) : ℚ) * 100 } := by
  have h := getStorageInfo_spec { available := true, entries := [("a", "bc")] } rfl
  rw [h]
  norm_num [show ("a" : String).length = 1 from rfl, show ("bc" : String).length = 2 from rfl]

/-- C7: a failed save (storage available, setItem throwing) never escapes —
the catch swallows the exception and the model stays total — reports
through showStorageStatus (plus an error toast in the quota case),
classifies quota-exceeded by name QuotaExceededError or code 22, and
leaves the in-memory collection exactly as it was (no rollback). -/
theorem saveInventory_failure_spec (inv : List Item) (e : JsError) :
    (saveInventory inv true (some e)).inventory = inv ∧
    (saveInventory inv true (some e)).statusCalls ≠ [] ∧
    ((e.name = "QuotaExceededError" ∨ e.code = some 22) →
      (saveInventory inv true (some e)).statusCalls = [(false, some "Storage quota exceeded")] ∧
      (saveInventory inv true (some e)).toasts.map Toast.severity = [Severity.error]) ∧
    (¬(e.name = "QuotaExceededError" ∨ e.code = some 22) →
      (saveInventory inv true (some e)).statusCalls = [(false, some "Error saving data")] ∧
      (saveInventory inv true (some e)).toasts = []) := by
  by_cases hc : e.name = "QuotaExceededError" ∨ e.code = some 22 <;>
    simp [saveInventory, hc]

/-- C7 witness: a quota error and an unrelated error, each classified. -/
theorem saveInventory_failure_spec_witness :
    ((saveInventory [item5] true (some { name := "QuotaExceededError", code := none })).inventory
        = [item5] ∧
     (saveInventory [item5] true (some { name := "QuotaExceededError", code := none })).statusCalls
        = [(false, some "Storage quota exceeded")]) ∧
    (saveInventory [item5] true (some { name := "SecurityError", code := some 18 })).statusCalls
        = [(false, some "Error saving data")] :=
  ⟨⟨(saveInventory_failure_spec [item5] { name := "QuotaExceededError", code := none }).1,
    ((saveInventory_failure_spec [item5] { name := "QuotaExceededError", code := none }).2.2.1
      (Or.inl rfl)).1⟩,
   ((saveInventory_failure_spec [item5] { name := "SecurityError", code := some 18 }).2.2.2
      (by decide)).1⟩

/-- C8: when the parsed import payload is any non-array JSON value, the
function importInventory surfaces a format-error toast and applies
nothing: the collection is unchanged and the persisted blob is never
rewritten. -/
theorem import_nonarray_spec (inv : List Item) (payload : JsonValue) (confirm : Bool)
    (idGen tsGen : Nat → String) (h : ∀ items, payload ≠ JsonValue.arr items) :
    importInventory inv payload confirm idGen tsGen =
      { inventory := inv
        persistedWrite := false
        toasts := [{ message := "Error importing inventory data: Invalid inventory data format"
                     severity := Severity.error }] } := by
  cases payload with
  | arr items => exact absurd rfl (h items)
  | object => rfl
  | string s => rfl
  | number n => rfl
  | boolean b => rfl
  | null => rfl

/-- C8 witness: the theorem applied to a null payload. -/
theorem import_nonarray_spec_witness :
    importInventory [item5] JsonValue.null true (fun _ => "fresh") (fun _ => "now") =
      { inventory := [item5]
        persistedWrite := false
        toasts := [{ message := "Error importing inventory data: Invalid inventory data format"
                     severity := Severity.error }] } :=
  import_nonarray_spec [item5] JsonValue.null true (fun _ => "fresh") (fun _ => "now")
    (fun _ h => JsonValue.noConfusion h)

/-- C9: whenever updateStorageInfo runs with storage available and the
recomputed percentage exceeds 85, the warning toast is emitted; the
function keeps no latch or debounce state — its notifications are a pure
function of the storage snapshot, so every recomputation above the
threshold re-warns. -/
theorem storage_warning_spec (s : StorageState) (h1 : s.available = true)
    (h2 : (getStorageInfo s).percentage > 85) :
    updateStorageInfo s =
      [{ message := "Warning: Running low on storage space. Consider exporting and clearing data."
         severity := Severity.warning }] := by
  simp [updateStorageInfo, h1, h2]

/-- C9 witness: a snapshot about 95% full triggers the warning. -/
theorem storage_warning_spec_witness :
    (getStorageInfo bigState).percentage > 85 ∧
    updateStorageInfo bigState =
      [{ message := "Warning: Running low on storage space. Consider exporting and clearing data."
         severity := Severity.warning }] := by
  have hlen : bigValue.length = 2500000 := by
    show (List.replicate 2500000 'a').length = 2500000
    exact List.length_replicate 2500000 'a'
  have hp : (getStorageInfo bigState).percentage > 85 := percentage_of_big_entry bigValue hlen
  exact ⟨hp, storage_warning_spec bigState rfl hp⟩

/-- C10: updateItemQuantity is frame-safe: the output collection is
pointwise aligned with the input (same length and order), every position
keeps its id, name, image and createdAt, and any item whose id differs
from the requested one is wholly unchanged — only the quantity field of
the first matching item can change. -/
theorem adjustQuantity_frame (inv : List Item) (id : String) (delta : Int) :
    List.Forall₂ (fun old new =>
        new.id = old.id ∧ new.name = old.name ∧ new.image = old.image ∧
        new.createdAt = old.createdAt ∧ (old.id ≠ id → new = old))
      inv (updateItemQuantity inv id delta) ∧
    (updateItemQuantity inv id delta).length = inv.length :=
  ⟨updateItemQuantity_frame_rel inv id delta,
   (List.Forall₂.length_eq (updateItemQuantity_frame_rel inv id delta)).symm⟩

end StockManagement
